import Mathlib

/-
  Shallow embedding of the env-manager library (EnvManager.ts, types.ts,
  helpers.ts).  Machine numbers from the JavaScript `Number(...)` string
  conversion are modelled as exact rationals plus the two infinities; NaN is
  represented externally as `Option.none`.  Rounding to binary64 is not
  modelled (no claim depends on it).
-/

namespace EnvMgr

/-- Result domain of the JavaScript `Number(string)` conversion: a finite
value (kept exact as a rational), or one of the two infinities.  NaN is
`none` at the use sites. -/
inductive JsNum where
  | finite (q : ℚ)
  | posInf
  | negInf
deriving DecidableEq

/-- JavaScript `StrWhiteSpace` characters (whitespace and line terminators)
that `Number(...)` strips from both ends of the input string. -/
def isWsChar (c : Char) : Bool :=
  c == ' ' || c == '\t' || c == '\n' || c == '\r' ||
  c == '\x0b' || c == '\x0c' || c == '\u00A0' || c == '\uFEFF' ||
  c == '\u2028' || c == '\u2029'

/-- Value of a list of decimal digits, most significant first. -/
def decDigitsVal (l : List Char) : Nat :=
  l.foldl (fun a c => a * 10 + (c.toNat - 48)) 0

/-- Hexadecimal digit test (0-9, a-f, A-F). -/
def isHexDigitCh (c : Char) : Bool :=
  c.isDigit || (decide (97 ≤ c.toNat) && decide (c.toNat ≤ 102)) ||
    (decide (65 ≤ c.toNat) && decide (c.toNat ≤ 70))

/-- Binary digit test. -/
def isBinDigitCh (c : Char) : Bool := c == '0' || c == '1'

/-- Octal digit test. -/
def isOctDigitCh (c : Char) : Bool := c.isDigit && decide (c.toNat ≤ 55)

/-- Value of a single hexadecimal digit. -/
def hexDigitVal (c : Char) : Nat :=
  if c.isDigit then c.toNat - 48
  else if decide (97 ≤ c.toNat) && decide (c.toNat ≤ 102) then c.toNat - 87
  else c.toNat - 55

/-- Value of a digit list in the given radix, most significant first. -/
def radixVal (radix : Nat) (l : List Char) : Nat :=
  l.foldl (fun a c => a * radix + hexDigitVal c) 0

/-- Split a character list at the first occurrence of `c`; `none` when `c`
does not occur. -/
def splitAtChar (c : Char) : List Char → Option (List Char × List Char)
  | [] => none
  | x :: xs =>
    if x == c then some ([], xs)
    else
      match splitAtChar c xs with
      | some (a, b) => some (x :: a, b)
      | none => none

/-- The mantissa of a `StrUnsignedDecimalLiteral`:
`DecimalDigits . DecimalDigits?`, `. DecimalDigits`, or `DecimalDigits`. -/
def parseMantissa (l : List Char) : Option ℚ :=
  match splitAtChar '.' l with
  | none =>
    if !l.isEmpty && l.all Char.isDigit then some ((decDigitsVal l : ℚ)) else none
  | some (ip, fp) =>
    if ip.all Char.isDigit && fp.all Char.isDigit && (!ip.isEmpty || !fp.isEmpty) then
      some ((decDigitsVal ip : ℚ) + (decDigitsVal fp : ℚ) / ((10 : ℚ) ^ fp.length))
    else none

/-- An `ExponentPart`'s `SignedInteger` (after the `e`/`E`). -/
def parseExpPart : List Char → Option ℤ
  | '+' :: rest =>
    if !rest.isEmpty && rest.all Char.isDigit then some ((decDigitsVal rest : ℤ)) else none
  | '-' :: rest =>
    if !rest.isEmpty && rest.all Char.isDigit then some (-(decDigitsVal rest : ℤ)) else none
  | l =>
    if !l.isEmpty && l.all Char.isDigit then some ((decDigitsVal l : ℤ)) else none

/-- Scale a mantissa by a signed power of ten. -/
def applyExpQ (m : ℚ) (e : ℤ) : ℚ :=
  if 0 ≤ e then m * (10 : ℚ) ^ e.toNat else m / (10 : ℚ) ^ (-e).toNat

/-- A `StrUnsignedDecimalLiteral`: the literal `Infinity`, or a decimal
mantissa with an optional exponent part. -/
def parseUnsignedNum (l : List Char) : Option JsNum :=
  if l == "Infinity".data then some .posInf
  else
    match (splitAtChar 'e' l).orElse (fun _ => splitAtChar 'E' l) with
    | some (m, ex) =>
      match parseMantissa m, parseExpPart ex with
      | some mv, some ev => some (.finite (applyExpQ mv ev))
      | _, _ => none
    | none => (parseMantissa l).map (fun q => .finite q)

/-- Negation on `JsNum`. -/
def negJsNum : JsNum → JsNum
  | .finite q => .finite (-q)
  | .posInf => .negInf
  | .negInf => .posInf

/-- A `StrNumericLiteral`: a non-decimal integer literal (`0x`/`0o`/`0b`),
or an optionally signed `StrUnsignedDecimalLiteral`. -/
def parseStrNumeric (cs : List Char) : Option JsNum :=
  match cs with
  | '0' :: 'x' :: rest =>
    if !rest.isEmpty && rest.all isHexDigitCh then some (.finite ((radixVal 16 rest : ℚ))) else none
  | '0' :: 'X' :: rest =>
    if !rest.isEmpty && rest.all isHexDigitCh then some (.finite ((radixVal 16 rest : ℚ))) else none
  | '0' :: 'b' :: rest =>
    if !rest.isEmpty && rest.all isBinDigitCh then some (.finite ((radixVal 2 rest : ℚ))) else none
  | '0' :: 'B' :: rest =>
    if !rest.isEmpty && rest.all isBinDigitCh then some (.finite ((radixVal 2 rest : ℚ))) else none
  | '0' :: 'o' :: rest =>
    if !rest.isEmpty && rest.all isOctDigitCh then some (.finite ((radixVal 8 rest : ℚ))) else none
  | '0' :: 'O' :: rest =>
    if !rest.isEmpty && rest.all isOctDigitCh then some (.finite ((radixVal 8 rest : ℚ))) else none
  | '+' :: rest => parseUnsignedNum rest
  | '-' :: rest => (parseUnsignedNum rest).map negJsNum
  | _ => parseUnsignedNum cs

/-- The JavaScript `Number(s)` conversion on strings (ECMAScript
`StringNumericLiteral`): trim whitespace, empty means `0`, otherwise parse a
numeric literal; `none` is NaN. -/
def jsToNumber (s : String) : Option JsNum :=
  let cs := ((s.data.dropWhile isWsChar).reverse.dropWhile isWsChar).reverse
  if cs.isEmpty then some (.finite 0) else parseStrNumeric cs

/-- Result of a user validator (TS `(value) => boolean | string`): the
boolean `true`, the boolean `false`, or an error-message string. -/
inductive VResult where
  | accept
  | reject
  | message (s : String)
deriving DecidableEq

/-- A parsed environment value: a string, a number, a boolean, or the
JavaScript `undefined` stored for an absent optional variable. -/
inductive ParsedValue where
  | vstr (s : String)
  | vnum (n : JsNum)
  | vbool (b : Bool)
  | vundef
deriving DecidableEq

/-- `EnvVariableType` from types.ts. -/
inductive EnvType where
  | string
  | number
  | boolean
deriving DecidableEq

/-- `EnvDeclaration` from types.ts: declared type, optional validator over
the parsed value, optional `required` flag. -/
structure EnvDecl where
  type : EnvType
  validator : Option (ParsedValue → VResult) := none
  required : Option Bool := none

/-- `EnvSchema` from types.ts, with the object's own-key insertion order
made explicit as a list. -/
def EnvSchema := List (String × EnvDecl)

/-- `RawEnvSource` from types.ts: keys bound to strings.  A key bound to
`undefined`/`null` behaves exactly like an absent key in EnvManager.ts, so
both are modelled as absence. -/
def RawEnvSource := List (String × String)

/-- Property read on the raw source (`this.source[k]`). -/
def lookupSrc (src : RawEnvSource) (k : String) : Option String :=
  List.lookup k src

/-- `EnvManagerConfig` from types.ts. -/
structure EnvManagerConfig where
  enableScopes : Option Bool := none
  scopes : Option (List (String × String)) := none

/-- The errors EnvManager.ts throws, with their payloads; `message` below
renders the exact thrown message strings. -/
inductive EnvError where
  | invalidSource
  | scopeUndetermined (scopeNames : List String)
  | missingVar (name : String)
  | invalidNumber (name : String)
  | invalidBoolean (name : String)
  | validation (name : String) (detail : Option String)
deriving DecidableEq

/-- The exact message strings thrown by EnvManager.ts for each error. -/
def EnvError.message : EnvError → String
  | .invalidSource => "[Env Manager] - Env source is undefined."
  | .scopeUndetermined names =>
    "[Env Manager] - Scopes enabled but current scope could not be determined from source. Ensure NODE_ENV is set (" ++
      String.intercalate " | " names ++ ")."
  | .missingVar n => "[Env Manager] - Missing required environment variable: " ++ n
  | .invalidNumber n =>
    "[Env Manager] - Environment variable " ++ n ++ " is not a valid number."
  | .invalidBoolean n =>
    "[Env Manager] - Environment variable " ++ n ++
      " is not a valid boolean. Use \"true\", \"false\", \"1\", or \"0\"."
  | .validation n detail =>
    "[Env Manager] - Environment variable " ++ n ++ " failed custom validation. " ++
      detail.getD ""

/-- The default scope table of EnvManager.ts (`this.scopes` initializer). -/
def defaultScopes : List (String × String) :=
  [("development", "DEV"), ("production", "PROD"), ("test", "TEST"), ("staging", "STAGE")]

/-- JavaScript object spread `{...base, ...ext}`: keys of `base` keep their
position (values overridden by colliding `ext` keys), new `ext` keys are
appended in order. -/
def mergeScopes (base ext : List (String × String)) : List (String × String) :=
  base.map (fun p => (p.1, (List.lookup p.1 ext).getD p.2)) ++
    ext.filter (fun p => (List.lookup p.1 base).isNone)

/-- `initCurrentScope` of EnvManager.ts: `this.source.NODE_ENV || null`.
The empty string is falsy in JavaScript, so it also yields `null`. -/
def initCurrentScope (src : RawEnvSource) : Option String :=
  match lookupSrc src "NODE_ENV" with
  | some s => if s == "" then none else some s
  | none => none

/-- JavaScript template-literal rendering of `this.scopes[scope]`: the table
entry, or the string `"undefined"` when the key is missing. -/
def scopeEntryStr (scopes : List (String × String)) (scope : String) : String :=
  match List.lookup scope scopes with
  | some p => p
  | none => "undefined"

/-- `getPrefixedName` of EnvManager.ts.  The guard is the JS truthiness of
`this.enableScopes && this.currentScope` (the empty string is falsy); the
template `` `${this.scopes[scope]}_` `` is never empty, so its `|| ""` is
dead and a missing table entry is stringified to `"undefined"`. -/
def getPrefixedName (enableScopes : Bool) (currentScope : Option String)
    (scopes : List (String × String)) (name : String) : String :=
  match enableScopes, currentScope with
  | true, some scope =>
    if scope == "" then name
    else (scopeEntryStr scopes scope ++ "_") ++ name
  | _, _ => name

/-- The shared validator step of `parseEnv` (each `switch` case of
EnvManager.ts runs the same block: `result !== true` throws, a string
result is appended to the message). -/
def runValidator (v : Option (ParsedValue → VResult)) (rawName : String)
    (val : ParsedValue) : Except EnvError ParsedValue :=
  match v with
  | none => .ok val
  | some f =>
    match f val with
    | .accept => .ok val
    | .reject => .error (.validation rawName none)
    | .message s => .error (.validation rawName (some s))

/-- The `switch (declaration.type)` of `parseEnv` for a present raw value:
string passes through, number goes through `Number(...)`/`isNaN`, boolean
accepts exactly the four literals; each case ends in the validator step. -/
def parseTyped (t : EnvType) (validator : Option (ParsedValue → VResult))
    (rawName rawValue : String) : Except EnvError ParsedValue :=
  match t with
  | .string => runValidator validator rawName (.vstr rawValue)
  | .number =>
    match jsToNumber rawValue with
    | none => .error (.invalidNumber rawName)
    | some n => runValidator validator rawName (.vnum n)
  | .boolean =>
    if rawValue != "true" && rawValue != "false" && rawValue != "1" && rawValue != "0" then
      .error (.invalidBoolean rawName)
    else
      runValidator validator rawName (.vbool (rawValue == "true" || rawValue == "1"))

/-- One iteration of the `for (const key in this.schema)` loop of
`parseEnv`: resolve the effective lookup key, read the raw value, handle
absence against `required` (default `true`), then convert and validate. -/
def parseKey (enableScopes : Bool) (currentScope : Option String)
    (scopes : List (String × String)) (src : RawEnvSource)
    (key : String) (d : EnvDecl) : Except EnvError ParsedValue :=
  let isRequired := d.required.getD true
  let rawName := getPrefixedName enableScopes currentScope scopes key
  match lookupSrc src rawName with
  | none =>
    if isRequired then .error (.missingVar rawName)
    else .ok .vundef
  | some rawValue => parseTyped d.type d.validator rawName rawValue

/-- `parseEnv` of EnvManager.ts: the loop over the schema keys in order,
aborting on the first thrown error. -/
def parseEnv (enableScopes : Bool) (currentScope : Option String)
    (scopes : List (String × String)) (src : RawEnvSource) :
    EnvSchema → Except EnvError (List (String × ParsedValue))
  | [] => .ok []
  | (k, d) :: rest =>
    match parseKey enableScopes currentScope scopes src k d with
    | .error e => .error e
    | .ok v =>
      match parseEnv enableScopes currentScope scopes src rest with
      | .error e => .error e
      | .ok tail => .ok ((k, v) :: tail)

/-- The `EnvManager` instance state after a successful construction. -/
structure EnvManager where
  source : RawEnvSource
  env : List (String × ParsedValue)
  schema : EnvSchema
  enableScopes : Bool
  currentScope : Option String
  scopes : List (String × String)

/-- The scope table the constructor ends up with (`this.scopes` after the
`config.scopes` merge, the defaults when no user scopes are supplied). -/
def resolvedScopes (config : Option EnvManagerConfig) : List (String × String) :=
  match config with
  | some cfg =>
    match cfg.scopes with
    | some u => mergeScopes defaultScopes u
    | none => defaultScopes
  | none => defaultScopes

/-- The `this.enableScopes` flag after the constructor ran (`false` unless
the configuration sets it). -/
def resolvedEnableScopes (config : Option EnvManagerConfig) : Bool :=
  match config with
  | some cfg => cfg.enableScopes.getD false
  | none => false

/-- The `EnvManager` constructor (reached through `EnvManager.create`):
source presence check, `initCurrentScope`, scope-table merge, the
scopes-enabled guard, then the eager `parseEnv`. -/
def create (schema : EnvSchema) (source : Option RawEnvSource)
    (config : Option EnvManagerConfig) : Except EnvError EnvManager :=
  match source with
  | none => .error .invalidSource
  | some src =>
    if resolvedEnableScopes config && (initCurrentScope src).isNone then
      .error (.scopeUndetermined ((resolvedScopes config).map Prod.fst))
    else
      match parseEnv (resolvedEnableScopes config) (initCurrentScope src)
          (resolvedScopes config) src schema with
      | .error e => .error e
      | .ok env =>
        .ok { source := src, env := env, schema := schema,
              enableScopes := resolvedEnableScopes config,
              currentScope := initCurrentScope src,
              scopes := resolvedScopes config }

/-- `data()` of EnvManager.ts: returns the cached parsed environment and
leaves the instance untouched. -/
def data (m : EnvManager) : List (String × ParsedValue) × EnvManager :=
  (m.env, m)

/-- The same property read with the backing store threaded explicitly, used
to make the absence of writes to the caller's source observable: every
access EnvManager.ts performs on `this.source` is a read, so it returns the
store it was given. -/
def srcRead (src : RawEnvSource) (k : String) : Option String × RawEnvSource :=
  (lookupSrc src k, src)

/-- `parseKey` with the raw source threaded through its single property
read. -/
def parseKeyRun (enableScopes : Bool) (currentScope : Option String)
    (scopes : List (String × String)) (src : RawEnvSource)
    (key : String) (d : EnvDecl) : Except EnvError ParsedValue × RawEnvSource :=
  let isRequired := d.required.getD true
  let rawName := getPrefixedName enableScopes currentScope scopes key
  let (rawValue?, src1) := srcRead src rawName
  match rawValue? with
  | none =>
    (if isRequired then .error (.missingVar rawName) else .ok .vundef, src1)
  | some rawValue => (parseTyped d.type d.validator rawName rawValue, src1)

/-- `parseEnv` with the raw source threaded through every read the loop
performs. -/
def parseEnvRun (enableScopes : Bool) (currentScope : Option String)
    (scopes : List (String × String)) :
    EnvSchema → RawEnvSource →
      Except EnvError (List (String × ParsedValue)) × RawEnvSource
  | [], src => (.ok [], src)
  | (k, d) :: rest, src =>
    match parseKeyRun enableScopes currentScope scopes src k d with
    | (.error e, src1) => (.error e, src1)
    | (.ok v, src1) =>
      match parseEnvRun enableScopes currentScope scopes rest src1 with
      | (.error e, src2) => (.error e, src2)
      | (.ok tail, src2) => (.ok ((k, v) :: tail), src2)

/-- The constructor with the caller's source threaded through every read it
performs (the `NODE_ENV` read of `initCurrentScope` and the reads of
`parseEnv`), returning the final state of the caller's mapping. -/
def createRun (schema : EnvSchema) (source : Option RawEnvSource)
    (config : Option EnvManagerConfig) :
    Except EnvError EnvManager × Option RawEnvSource :=
  match source with
  | none => (.error .invalidSource, none)
  | some src =>
    let (nodeEnv?, src0) := srcRead src "NODE_ENV"
    let currentScope :=
      match nodeEnv? with
      | some s => if s == "" then none else some s
      | none => none
    if resolvedEnableScopes config && currentScope.isNone then
      (.error (.scopeUndetermined ((resolvedScopes config).map Prod.fst)), some src0)
    else
      match parseEnvRun (resolvedEnableScopes config) currentScope
          (resolvedScopes config) schema src0 with
      | (.error e, src1) => (.error e, some src1)
      | (.ok env, src1) =>
        (.ok { source := src1, env := env, schema := schema,
               enableScopes := resolvedEnableScopes config,
               currentScope := currentScope,
               scopes := resolvedScopes config },
         some src1)

/-- The `required` flag with its default: `declaration.required ?? true`. -/
def requiredOf (d : EnvDecl) : Bool := d.required.getD true

/-- A raw string is convertible to the declared kind: always for strings,
non-NaN for numbers, one of the four literals for booleans. -/
def kindOk (t : EnvType) (r : String) : Bool :=
  match t with
  | .string => true
  | .number => (jsToNumber r).isSome
  | .boolean => r == "true" || r == "false" || r == "1" || r == "0"

/-- The converted value of a convertible raw string (junk `0` for a NaN
number, never reached under `kindOk`). -/
def convert (t : EnvType) (r : String) : ParsedValue :=
  match t with
  | .string => .vstr r
  | .number =>
    match jsToNumber r with
    | some n => .vnum n
    | none => .vnum (.finite 0)
  | .boolean => .vbool (r == "true" || r == "1")

/-- The declaration's validator (if any) accepts the value. -/
def validatorAccepts (d : EnvDecl) (v : ParsedValue) : Bool :=
  match d.validator with
  | none => true
  | some f =>
    match f v with
    | .accept => true
    | _ => false

/-- A schema entry is either optional or present in the source (under the
bare key, i.e. with scopes disabled). -/
def requiredPresent (src : RawEnvSource) (p : String × EnvDecl) : Bool :=
  !(requiredOf p.2) || (lookupSrc src p.1).isSome

/-- If the schema entry's bare key is present, its raw string converts to
the declared kind and the validator (if any) accepts the converted value. -/
def presentOk (src : RawEnvSource) (p : String × EnvDecl) : Bool :=
  match lookupSrc src p.1 with
  | none => true
  | some r => kindOk p.2.type r && validatorAccepts p.2 (convert p.2.type r)

/-- The parsed record a well-formed scopeless construction produces: each
schema key in order, bound to its converted value, or to `undefined` when
absent. -/
def expectedEnv (schema : EnvSchema) (src : RawEnvSource) :
    List (String × ParsedValue) :=
  schema.map (fun p =>
    (p.1,
     match lookupSrc src p.1 with
     | none => ParsedValue.vundef
     | some r => convert p.2.type r))

/-- With scopes disabled the effective lookup key is the schema key. -/
theorem getPrefixedName_false (cur : Option String) (sc : List (String × String))
    (name : String) : getPrefixedName false cur sc name = name := by
  cases cur <;> rfl

/-- With no current scope the effective lookup key is the schema key. -/
theorem getPrefixedName_none (es : Bool) (sc : List (String × String))
    (name : String) : getPrefixedName es none sc name = name := by
  cases es <;> rfl

/-- An accepted validator (or no validator) leaves the value untouched. -/
theorem runValidator_ok (d : EnvDecl) (rn : String) (v : ParsedValue)
    (h : validatorAccepts d v = true) : runValidator d.validator rn v = .ok v := by
  unfold validatorAccepts at h
  cases hv : d.validator with
  | none => simp [runValidator]
  | some f =>
    rw [hv] at h
    dsimp only at h
    cases hf : f v with
    | accept => simp [runValidator, hf]
    | reject => rw [hf] at h; simp at h
    | message s => rw [hf] at h; simp at h

/-- `runValidator` only produces validation errors. -/
theorem runValidator_ne_scope (v : Option (ParsedValue → VResult)) (rn : String)
    (val : ParsedValue) (l : List String) :
    runValidator v rn val ≠ .error (.scopeUndetermined l) := by
  cases v with
  | none => simp [runValidator]
  | some f =>
    simp only [runValidator]
    cases f val <;> simp

/-- Any error coming out of the validator step is a validation error naming
the effective lookup key. -/
theorem runValidator_error (v : Option (ParsedValue → VResult)) (rn : String)
    (val : ParsedValue) (e : EnvError)
    (h : runValidator v rn val = .error e) : ∃ det, e = .validation rn det := by
  cases v with
  | none => simp [runValidator] at h
  | some f =>
    simp only [runValidator] at h
    cases hf : f val <;> rw [hf] at h
    · exact absurd h (by simp)
    · exact ⟨none, by injection h with he; exact he.symm⟩
    · next s => exact ⟨some s, by injection h with he; exact he.symm⟩

/-- When the raw value converts, the typed parse is the validator step on
the converted value. -/
theorem parseTyped_convert (t : EnvType) (v : Option (ParsedValue → VResult))
    (rn r : String) (hk : kindOk t r = true) :
    parseTyped t v rn r = runValidator v rn (convert t r) := by
  cases t with
  | string => rfl
  | number =>
    simp only [kindOk] at hk
    rcases hn : jsToNumber r with _ | n
    · rw [hn] at hk; simp at hk
    · simp [parseTyped, convert, hn]
  | boolean =>
    simp only [kindOk, Bool.or_eq_true, beq_iff_eq] at hk
    have hcond : (r != "true" && r != "false" && r != "1" && r != "0") = false := by
      rcases hk with ((h | h) | h) | h <;> simp [h]
    simp [parseTyped, convert, hcond]

/-- A present key parses through the typed conversion. -/
theorem parseKey_present (es : Bool) (cur : Option String)
    (sc : List (String × String)) (src : RawEnvSource) (k : String) (d : EnvDecl)
    (r : String)
    (hr : lookupSrc src (getPrefixedName es cur sc k) = some r) :
    parseKey es cur sc src k d =
      parseTyped d.type d.validator (getPrefixedName es cur sc k) r := by
  simp only [parseKey]
  rw [hr]

/-- A present-and-convertible, validator-accepted key parses to its
converted value. -/
theorem parseKey_ok (es : Bool) (cur : Option String) (sc : List (String × String))
    (src : RawEnvSource) (k : String) (d : EnvDecl) (r : String)
    (hr : lookupSrc src (getPrefixedName es cur sc k) = some r)
    (hk : kindOk d.type r = true)
    (hv : validatorAccepts d (convert d.type r) = true) :
    parseKey es cur sc src k d = .ok (convert d.type r) := by
  rw [parseKey_present es cur sc src k d r hr,
    parseTyped_convert d.type d.validator _ r hk]
  exact runValidator_ok d (getPrefixedName es cur sc k) (convert d.type r) hv

/-- An absent effective lookup key gives `MissingVariableError` when
required and `undefined` otherwise, without consulting the validator. -/
theorem parseKey_absent (es : Bool) (cur : Option String)
    (sc : List (String × String)) (src : RawEnvSource) (k : String) (d : EnvDecl)
    (h : lookupSrc src (getPrefixedName es cur sc k) = none) :
    parseKey es cur sc src k d =
      (if requiredOf d then .error (.missingVar (getPrefixedName es cur sc k))
       else .ok .vundef) := by
  simp only [parseKey, requiredOf]
  rw [h]

/-- `parseKey` never produces the scope-undetermined error. -/
theorem parseKey_ne_scope (es : Bool) (cur : Option String)
    (sc : List (String × String)) (src : RawEnvSource) (k : String) (d : EnvDecl)
    (l : List String) :
    parseKey es cur sc src k d ≠ .error (.scopeUndetermined l) := by
  simp only [parseKey]
  cases lookupSrc src (getPrefixedName es cur sc k) with
  | none =>
    dsimp only
    split <;> simp
  | some r =>
    cases d.type with
    | string => exact runValidator_ne_scope _ _ _ _
    | number =>
      simp only [parseTyped]
      cases jsToNumber r with
      | none => simp
      | some n => exact runValidator_ne_scope _ _ _ _
    | boolean =>
      simp only [parseTyped]
      split
      · simp
      · exact runValidator_ne_scope _ _ _ _

/-- `parseEnv` never produces the scope-undetermined error. -/
theorem parseEnv_ne_scope (es : Bool) (cur : Option String)
    (sc : List (String × String)) (src : RawEnvSource) (schema : EnvSchema)
    (l : List String) :
    parseEnv es cur sc src schema ≠ .error (.scopeUndetermined l) := by
  induction schema with
  | nil => simp [parseEnv]
  | cons p rest ih =>
    obtain ⟨k, d⟩ := p
    simp only [parseEnv]
    cases hk : parseKey es cur sc src k d with
    | error e =>
      intro hc
      dsimp only at hc
      injection hc with he
      subst he
      exact parseKey_ne_scope es cur sc src k d l hk
    | ok v =>
      cases hrest : parseEnv es cur sc src rest with
      | error e =>
        intro hc
        dsimp only at hc
        injection hc with he
        subst he
        exact ih hrest
      | ok tail => simp [hrest]

/-- Lookup distributes over list append, preferring the left list. -/
theorem lookup_append (k : String) (l1 l2 : List (String × String)) :
    List.lookup k (l1 ++ l2) =
      (List.lookup k l1).orElse (fun _ => List.lookup k l2) := by
  induction l1 with
  | nil => simp [List.lookup]
  | cons a l ih =>
    obtain ⟨a1, a2⟩ := a
    by_cases h : k == a1
    · simp [List.lookup, h, Option.orElse]
    · simp only [List.cons_append, List.lookup]
      simp only [Bool.not_eq_true] at h
      simp [h, ih]

/-- Filtering with a predicate that holds on every entry of key `k` does
not change the lookup of `k`. -/
theorem lookup_filter (p : String × String → Bool) (l : List (String × String))
    (k : String) (hp : ∀ v, p (k, v) = true) :
    List.lookup k (l.filter p) = List.lookup k l := by
  induction l with
  | nil => rfl
  | cons a l ih =>
    obtain ⟨a1, a2⟩ := a
    by_cases h : k == a1
    · have : a1 = k := (beq_iff_eq.mp h).symm
      subst this
      simp [List.filter, hp a2, List.lookup, h]
    · simp only [Bool.not_eq_true] at h
      cases hpa : p (a1, a2) <;> simp [List.filter, hpa, List.lookup, h, ih]

/-- Lookup in the overridden copy of `base` is the lookup in `base` with
the value overridden through `ext`. -/
theorem lookup_map_override (base ext : List (String × String)) (k : String) :
    List.lookup k (base.map (fun p => (p.1, (List.lookup p.1 ext).getD p.2))) =
      (List.lookup k base).map (fun v => (List.lookup k ext).getD v) := by
  induction base with
  | nil => rfl
  | cons a l ih =>
    obtain ⟨a1, a2⟩ := a
    by_cases h : k == a1
    · have : k = a1 := beq_iff_eq.mp h
      subst this
      simp [List.lookup, h]
    · simp only [Bool.not_eq_true] at h
      simp [List.lookup, h, ih]

/-- Pointwise description of the object spread `{...base, ...ext}`: an
`ext` binding wins, otherwise the `base` binding remains. -/
theorem mergeScopes_lookup (base ext : List (String × String)) (k : String) :
    List.lookup k (mergeScopes base ext) =
      (List.lookup k ext).orElse (fun _ => List.lookup k base) := by
  unfold mergeScopes
  rw [lookup_append, lookup_map_override]
  cases hb : List.lookup k base with
  | some v =>
    cases he : List.lookup k ext <;> simp [Option.orElse, he]
  | none =>
    rw [lookup_filter _ ext k (fun v => by simp [hb])]
    cases he : List.lookup k ext <;> simp [Option.orElse, he]

/-- With scopes disabled, a schema whose required keys are present and
whose present keys convert and validate parses to `expectedEnv`. -/
theorem parseEnv_scopeless (cur : Option String) (sc : List (String × String))
    (src : RawEnvSource) (schema : EnvSchema)
    (h : schema.all (fun p => requiredPresent src p && presentOk src p) = true) :
    parseEnv false cur sc src schema = .ok (expectedEnv schema src) := by
  induction schema with
  | nil => rfl
  | cons p rest ih =>
    obtain ⟨k, d⟩ := p
    simp only [List.all_cons, Bool.and_eq_true] at h
    obtain ⟨⟨hreq, hpres⟩, hrest⟩ := h
    have hrest' : rest.all (fun p => requiredPresent src p && presentOk src p) = true := by
      simp only [List.all_eq_true] at hrest ⊢
      intro x hx
      exact hrest x hx
    have hkey : parseKey false cur sc src k d =
        .ok (match lookupSrc src k with
             | none => ParsedValue.vundef
             | some r => convert d.type r) := by
      cases hl : lookupSrc src k with
      | none =>
        have habs := parseKey_absent false cur sc src k d
          (by rw [getPrefixedName_false]; exact hl)
        unfold requiredPresent at hreq
        dsimp only at hreq
        rw [hl] at hreq
        simp only [Option.isSome_none, Bool.or_false, Bool.not_eq_true'] at hreq
        rw [habs, hreq]
        rfl
      | some r =>
        unfold presentOk at hpres
        dsimp only at hpres
        rw [hl] at hpres
        simp only [Bool.and_eq_true] at hpres
        exact parseKey_ok false cur sc src k d r
          (by rw [getPrefixedName_false]; exact hl) hpres.1 hpres.2
    simp only [parseEnv, hkey, ih hrest', expectedEnv, List.map_cons]

/-- The threaded per-key parse performs only reads: it returns the source
it was handed, alongside the plain `parseKey` result. -/
theorem parseKeyRun_eq (es : Bool) (cur : Option String)
    (sc : List (String × String)) (src : RawEnvSource) (k : String) (d : EnvDecl) :
    parseKeyRun es cur sc src k d = (parseKey es cur sc src k d, src) := by
  simp only [parseKeyRun, parseKey, srcRead]
  cases lookupSrc src (getPrefixedName es cur sc k) <;> rfl

/-- The threaded parse loop performs only reads: it hands back the source
it started from. -/
theorem parseEnvRun_source (es : Bool) (cur : Option String)
    (sc : List (String × String)) (schema : EnvSchema) (src : RawEnvSource) :
    (parseEnvRun es cur sc schema src).2 = src := by
  induction schema with
  | nil => rfl
  | cons p rest ih =>
    obtain ⟨k, d⟩ := p
    simp only [parseEnvRun, parseKeyRun_eq]
    cases parseKey es cur sc src k d with
    | error e => rfl
    | ok v =>
      dsimp only
      rcases hp : parseEnvRun es cur sc rest src with ⟨r, s2⟩
      have hs : s2 = src := by
        have := ih
        rw [hp] at this
        exact this
      cases r <;> simp [hs]

/-- The threaded constructor performs only reads on the caller's source. -/
theorem createRun_source (schema : EnvSchema) (source : Option RawEnvSource)
    (config : Option EnvManagerConfig) :
    (createRun schema source config).2 = source := by
  cases source with
  | none => rfl
  | some src =>
    simp only [createRun, srcRead]
    split
    · rfl
    · rcases hp : parseEnvRun (resolvedEnableScopes config)
          (match lookupSrc src "NODE_ENV" with
           | some s => if s == "" then none else some s
           | none => none)
          (resolvedScopes config) schema src with ⟨r, s1⟩
      have hs : s1 = src := by
        have := parseEnvRun_source (resolvedEnableScopes config)
          (match lookupSrc src "NODE_ENV" with
           | some s => if s == "" then none else some s
           | none => none)
          (resolvedScopes config) schema src
        rw [hp] at this
        exact this
      cases r <;> simp [hs]

/-- C1 counterexample. The claim's hypotheses only constrain the required
keys, but an optional key that is present with a kind-invalid string still
aborts construction: for the schema `{A : boolean, required false}` and the
source `{A ↦ "xyz"}` every required key of the schema (there are none) is
present and valid, yet `create` fails with `InvalidBooleanError` instead of
succeeding. -/
theorem claim_C1_counterexample :
    create [("A", { type := .boolean, required := some false })]
        (some [("A", "xyz")]) none =
      .error (.invalidBoolean "A") := rfl

/-- C1 (amended): with scopes disabled, if every required key of the schema
is present in the source and every key that is present (required or
optional) holds a string valid for its declared kind with its validator (if
any) accepting the parsed value, then construction succeeds; `data()`
returns a record whose keys are exactly the schema's keys in order, where
each string key keeps the raw string, each number key gets its numeric
interpretation, each boolean key the corresponding boolean, and each
optional absent key `undefined`. -/
theorem claim_C1 (schema : EnvSchema) (src : RawEnvSource)
    (h : schema.all (fun p => requiredPresent src p && presentOk src p) = true) :
    create schema (some src) none =
      .ok { source := src, env := expectedEnv schema src, schema := schema,
            enableScopes := false, currentScope := initCurrentScope src,
            scopes := defaultScopes }
    ∧ (create schema (some src) none).map (fun m => (data m).1) =
        .ok (expectedEnv schema src)
    ∧ (expectedEnv schema src).map Prod.fst = schema.map Prod.fst := by
  have hp := parseEnv_scopeless (initCurrentScope src) defaultScopes src schema h
  have hc : create schema (some src) none =
      .ok { source := src, env := expectedEnv schema src, schema := schema,
            enableScopes := false, currentScope := initCurrentScope src,
            scopes := defaultScopes } := by
    simp only [create, resolvedEnableScopes, resolvedScopes, Bool.false_and,
      Bool.false_eq_true, if_false, hp]
  refine ⟨hc, ?_, ?_⟩
  · rw [hc]; rfl
  · simp [expectedEnv, List.map_map, Function.comp]

/-- C1 witness: all three kinds, an optional absent key, an optional
present boolean, and an accepting validator. -/
theorem claim_C1_witness :
    create
        [("API_URL", { type := .string }),
         ("PORT", { type := .number, validator := some (fun _ => .accept) }),
         ("DEBUG", { type := .boolean, required := some false }),
         ("TAG", { type := .string, required := some false })]
        (some [("API_URL", "https://x.example"), ("PORT", "8080"), ("DEBUG", "1")])
        none =
      .ok { source := [("API_URL", "https://x.example"), ("PORT", "8080"), ("DEBUG", "1")],
            env := [("API_URL", .vstr "https://x.example"),
                    ("PORT", .vnum (.finite 8080)),
                    ("DEBUG", .vbool true), ("TAG", .vundef)],
            schema := [("API_URL", { type := .string }),
                       ("PORT", { type := .number, validator := some (fun _ => .accept) }),
                       ("DEBUG", { type := .boolean, required := some false }),
                       ("TAG", { type := .string, required := some false })],
            enableScopes := false, currentScope := none,
            scopes := defaultScopes } :=
  (claim_C1 _ _ (by decide)).1

/-- C2 counterexample. `Number("")` is `0` in JavaScript, not NaN, so a
present number variable bound to the empty string does not raise
`InvalidNumberError`: construction succeeds and parses it to `0`, against
the claim's "the empty string ... cause this error". -/
theorem claim_C2_counterexample :
    create [("N", { type := .number })] (some [("N", "")]) none =
      .ok { source := [("N", "")], env := [("N", .vnum (.finite 0))],
            schema := [("N", { type := .number })],
            enableScopes := false, currentScope := none,
            scopes := defaultScopes } := rfl

/-- C2 (amended): for a number-kind key whose effective lookup key is
present with raw string `r`, the per-key parse fails with
`InvalidNumberError` naming the effective lookup key if and only if the
JavaScript numeric conversion of `r` is NaN (`jsToNumber r = none`); thus
strings with non-numeric residue fail, while the empty and whitespace-only
strings convert to `0` and the Infinity literals to infinities (all
accepted).  Without a validator, an accepted key parses to the numeric
conversion. -/
theorem claim_C2 (es : Bool) (cur : Option String) (sc : List (String × String))
    (src : RawEnvSource) (k : String) (d : EnvDecl) (r : String)
    (hty : d.type = .number)
    (hr : lookupSrc src (getPrefixedName es cur sc k) = some r) :
    (parseKey es cur sc src k d =
        .error (.invalidNumber (getPrefixedName es cur sc k))
      ↔ jsToNumber r = none)
    ∧ (d.validator = none →
        parseKey es cur sc src k d =
          (match jsToNumber r with
           | none => .error (.invalidNumber (getPrefixedName es cur sc k))
           | some n => .ok (.vnum n))) := by
  rw [parseKey_present es cur sc src k d r hr, hty]
  constructor
  · simp only [parseTyped]
    cases hn : jsToNumber r with
    | none => simp
    | some n =>
      constructor
      · intro hcontra
        exfalso
        rcases runValidator_error _ _ _ _ hcontra with ⟨det, hdet⟩
        simp at hdet
      · intro hcontra
        exact absurd hcontra (by simp)
  · intro hv
    rw [hv]
    simp only [parseTyped]
    cases hn : jsToNumber r with
    | none => rfl
    | some n => simp [runValidator]

/-- C2 witness: a non-numeric residue string is NaN and raises
`InvalidNumberError` naming the key. -/
theorem claim_C2_witness :
    (parseKey false none defaultScopes [("N", "12px")] "N" { type := .number } =
        .error (.invalidNumber "N")
      ↔ jsToNumber "12px" = none)
    ∧ (({ type := .number } : EnvDecl).validator = none →
        parseKey false none defaultScopes [("N", "12px")] "N" { type := .number } =
          .error (.invalidNumber "N")) :=
  claim_C2 false none defaultScopes [("N", "12px")] "N" { type := .number } "12px" rfl rfl

/-- C3 (confirmed): a boolean-kind key present at its effective lookup key
parses successfully exactly for the four case-sensitive literals, mapping
`"true"`/`"1"` to `true` and `"false"`/`"0"` to `false` (stated for
declarations without a validator, whose behaviour C8 covers); every other
raw string fails with `InvalidBooleanError` naming the effective lookup
key (for any declaration), whose thrown message lists the accepted
literals. -/
theorem claim_C3 (es : Bool) (cur : Option String) (sc : List (String × String))
    (src : RawEnvSource) (k : String) (d : EnvDecl) (r : String)
    (hty : d.type = .boolean)
    (hr : lookupSrc src (getPrefixedName es cur sc k) = some r) :
    (¬(r = "true" ∨ r = "false" ∨ r = "1" ∨ r = "0") →
       parseKey es cur sc src k d =
         .error (.invalidBoolean (getPrefixedName es cur sc k)))
    ∧ (d.validator = none →
       parseKey es cur sc src k d =
         (if r = "true" ∨ r = "1" then .ok (.vbool true)
          else if r = "false" ∨ r = "0" then .ok (.vbool false)
          else .error (.invalidBoolean (getPrefixedName es cur sc k))))
    ∧ EnvError.message (.invalidBoolean (getPrefixedName es cur sc k)) =
        "[Env Manager] - Environment variable " ++ getPrefixedName es cur sc k ++
          " is not a valid boolean. Use \"true\", \"false\", \"1\", or \"0\"." := by
  rw [parseKey_present es cur sc src k d r hr, hty]
  refine ⟨?_, ?_, rfl⟩
  · intro h
    push_neg at h
    obtain ⟨h1, h2, h3, h4⟩ := h
    simp only [parseTyped]
    have hcond : (r != "true" && r != "false" && r != "1" && r != "0") = true := by
      simp [h1, h2, h3, h4]
    simp [hcond]
  · intro hv
    rw [hv]
    simp only [parseTyped]
    by_cases h1 : r = "true"
    · subst h1; simp [runValidator]
    · by_cases h2 : r = "false"
      · subst h2; simp [runValidator]
      · by_cases h3 : r = "1"
        · subst h3; simp [runValidator]
        · by_cases h4 : r = "0"
          · subst h4; simp [runValidator]
          · simp [h1, h2, h3, h4]

/-- C3 witness: case sensitivity — the raw string `"TRUE"` is rejected with
`InvalidBooleanError` naming the key. -/
theorem claim_C3_witness :
    parseKey false none defaultScopes [("FLAG", "TRUE")] "FLAG" { type := .boolean } =
      .error (.invalidBoolean "FLAG") :=
  (claim_C3 false none defaultScopes [("FLAG", "TRUE")] "FLAG" { type := .boolean }
    "TRUE" rfl rfl).1 (by decide)

/-- C4 (confirmed): when the effective lookup key is absent, a required key
(`required` defaulting to `true` when unspecified) makes the per-key parse
— and hence the whole loop — fail with `MissingVariableError` naming the
effective lookup key, while an optional key parses to `undefined` and the
loop continues with the remaining keys; the result does not depend on the
declaration's validator, which is never invoked. -/
theorem claim_C4 (es : Bool) (cur : Option String) (sc : List (String × String))
    (src : RawEnvSource) (k : String) (d : EnvDecl) (rest : EnvSchema)
    (h : lookupSrc src (getPrefixedName es cur sc k) = none) :
    parseKey es cur sc src k d =
      (if requiredOf d then .error (.missingVar (getPrefixedName es cur sc k))
       else .ok .vundef)
    ∧ parseEnv es cur sc src ((k, d) :: rest) =
      (if requiredOf d then .error (.missingVar (getPrefixedName es cur sc k))
       else (parseEnv es cur sc src rest).map (fun t => (k, .vundef) :: t)) := by
  have h1 := parseKey_absent es cur sc src k d h
  refine ⟨h1, ?_⟩
  simp only [parseEnv, h1]
  cases hreq : requiredOf d
  · simp only [Bool.false_eq_true, if_false]
    cases hrest : parseEnv es cur sc src rest <;> simp [Except.map]
  · simp

/-- C4 witness: the required key `PORT` is absent (with `required`
unspecified, hence defaulted to `true`), so the parse fails with
`MissingVariableError` naming `PORT` before reaching later keys. -/
theorem claim_C4_witness :
    parseKey false none defaultScopes [("OTHER", "1")] "PORT" { type := .number } =
      .error (.missingVar "PORT")
    ∧ parseEnv false none defaultScopes [("OTHER", "1")]
        [("PORT", { type := .number }), ("OTHER", { type := .number })] =
      .error (.missingVar "PORT") := by
  have h := claim_C4 false none defaultScopes [("OTHER", "1")] "PORT"
    { type := .number } [("OTHER", { type := .number })] rfl
  exact ⟨h.1, h.2⟩

/-- C5 (confirmed): with scopes enabled and a known (non-empty) current
scope whose table entry is `pfx`, the effective lookup key is
`pfx ++ "_" ++ name` — an empty-string entry yields `"_" ++ name` with no
special-casing — while with scopes disabled or no known current scope the
effective lookup key is the schema key itself. -/
theorem claim_C5 (es : Bool) (cur : Option String) (sc : List (String × String))
    (name s pfx : String) :
    (cur = some s → s ≠ "" → List.lookup s sc = some pfx →
       getPrefixedName true cur sc name = pfx ++ "_" ++ name)
    ∧ (cur = some s → s ≠ "" → List.lookup s sc = some pfx → pfx = "" →
       getPrefixedName true cur sc name = "_" ++ name)
    ∧ getPrefixedName false cur sc name = name
    ∧ getPrefixedName es none sc name = name := by
  have hmain : cur = some s → s ≠ "" → List.lookup s sc = some pfx →
      getPrefixedName true cur sc name = pfx ++ "_" ++ name := by
    intro hc hs hl
    subst hc
    have hne : ¬((s == "") = true) := by simp [hs]
    simp only [getPrefixedName, if_neg hne, scopeEntryStr, hl]
  refine ⟨hmain, ?_, getPrefixedName_false cur sc name, getPrefixedName_none es sc name⟩
  intro hc hs hl hp
  rw [hmain hc hs hl, hp]
  rfl

/-- C5 witness: a looked-up prefix, an empty-string prefix, scopes
disabled, and no current scope. -/
theorem claim_C5_witness :
    getPrefixedName true (some "production") [("production", "LIVE")] "API_KEY" =
      "LIVE_API_KEY"
    ∧ getPrefixedName true (some "qa") [("qa", "")] "API_KEY" = "_API_KEY"
    ∧ getPrefixedName false (some "production") [("production", "LIVE")] "API_KEY" =
      "API_KEY"
    ∧ getPrefixedName true none [("production", "LIVE")] "API_KEY" = "API_KEY" :=
  ⟨(claim_C5 true (some "production") [("production", "LIVE")] "API_KEY"
      "production" "LIVE").1 rfl (by decide) rfl,
   (claim_C5 true (some "qa") [("qa", "")] "API_KEY" "qa" "").2.1 rfl (by decide) rfl rfl,
   (claim_C5 false (some "production") [("production", "LIVE")] "API_KEY"
      "production" "LIVE").2.2.1,
   (claim_C5 true none [("production", "LIVE")] "API_KEY" "production" "LIVE").2.2.2⟩

/-- C6 (confirmed): with `enableScopes` set and `NODE_ENV` absent from the
source, construction fails — for every schema, so no schema key is parsed —
with `ScopeUndeterminedError`, whose thrown message enumerates the scope
names of the table obtained by merging the user scopes into the defaults. -/
theorem claim_C6 (schema : EnvSchema) (src : RawEnvSource) (cfg : EnvManagerConfig)
    (h1 : cfg.enableScopes = some true)
    (h2 : lookupSrc src "NODE_ENV" = none) :
    create schema (some src) (some cfg) =
      .error (.scopeUndetermined ((resolvedScopes (some cfg)).map Prod.fst))
    ∧ EnvError.message
        (.scopeUndetermined ((resolvedScopes (some cfg)).map Prod.fst)) =
        "[Env Manager] - Scopes enabled but current scope could not be determined from source. Ensure NODE_ENV is set (" ++
          String.intercalate " | " ((resolvedScopes (some cfg)).map Prod.fst) ++ ")." := by
  refine ⟨?_, rfl⟩
  have hcur : initCurrentScope src = none := by simp [initCurrentScope, h2]
  have hes : resolvedEnableScopes (some cfg) = true := by
    simp [resolvedEnableScopes, h1]
  simp [create, hcur, hes]

/-- C6 witness: user scope `qa` is merged into the defaults and shows up in
the enumerated scope names; the schema's own key never gets parsed. -/
theorem claim_C6_witness :
    create [("K", { type := .string })] (some [("K", "v")])
        (some { enableScopes := some true, scopes := some [("qa", "QA")] }) =
      .error (.scopeUndetermined
        ["development", "production", "test", "staging", "qa"])
    ∧ EnvError.message
        (.scopeUndetermined ["development", "production", "test", "staging", "qa"]) =
        "[Env Manager] - Scopes enabled but current scope could not be determined from source. Ensure NODE_ENV is set (development | production | test | staging | qa)." :=
  claim_C6 [("K", { type := .string })] [("K", "v")]
    { enableScopes := some true, scopes := some [("qa", "QA")] } rfl rfl

/-- C7 (confirmed): the scope table the constructor resolves from a
configuration with user scopes is the default table overlaid with the user
entries — pointwise, a key bound by the user maps to the user's prefix, and
a key not bound by the user keeps its default binding (if any). -/
theorem claim_C7 (e : Option Bool) (user : List (String × String)) (k : String) :
    resolvedScopes (some { enableScopes := e, scopes := some user }) =
      mergeScopes defaultScopes user
    ∧ List.lookup k (mergeScopes defaultScopes user) =
        (List.lookup k user).orElse (fun _ => List.lookup k defaultScopes) :=
  ⟨rfl, mergeScopes_lookup defaultScopes user k⟩

/-- C8 (confirmed): for a present, kind-convertible key whose declaration
carries a validator, the validator receives the parsed, typed value;
returning `true` accepts that value, returning `false` fails with
`ValidationError` naming the effective lookup key with no detail, and
returning a string fails with `ValidationError` whose thrown message ends
in the returned string. -/
theorem claim_C8 (es : Bool) (cur : Option String) (sc : List (String × String))
    (src : RawEnvSource) (k : String) (d : EnvDecl) (r : String)
    (f : ParsedValue → VResult)
    (hr : lookupSrc src (getPrefixedName es cur sc k) = some r)
    (hk : kindOk d.type r = true)
    (hv : d.validator = some f) :
    match f (convert d.type r) with
    | .accept => parseKey es cur sc src k d = .ok (convert d.type r)
    | .reject =>
      parseKey es cur sc src k d =
        .error (.validation (getPrefixedName es cur sc k) none)
    | .message s =>
      parseKey es cur sc src k d =
        .error (.validation (getPrefixedName es cur sc k) (some s))
      ∧ EnvError.message (.validation (getPrefixedName es cur sc k) (some s)) =
          "[Env Manager] - Environment variable " ++ getPrefixedName es cur sc k ++
            " failed custom validation. " ++ s := by
  have hp : parseKey es cur sc src k d =
      runValidator (some f) (getPrefixedName es cur sc k) (convert d.type r) := by
    rw [parseKey_present es cur sc src k d r hr,
      parseTyped_convert d.type d.validator _ r hk, hv]
  cases hf : f (convert d.type r) with
  | accept => rw [hp]; simp [runValidator, hf]
  | reject => rw [hp]; simp [runValidator, hf]
  | message s => exact ⟨by rw [hp]; simp [runValidator, hf], rfl⟩

/-- C8 witness: a validator returning a string aborts construction with a
`ValidationError` whose message carries that string. -/
theorem claim_C8_witness :
    parseKey false none defaultScopes [("PORT", "70000")] "PORT"
        { type := .number, validator := some (fun _ => .message "PORT out of range") } =
      .error (.validation "PORT" (some "PORT out of range"))
    ∧ EnvError.message (.validation "PORT" (some "PORT out of range")) =
        "[Env Manager] - Environment variable PORT failed custom validation. PORT out of range" :=
  claim_C8 false none defaultScopes [("PORT", "70000")] "PORT"
    { type := .number, validator := some (fun _ => .message "PORT out of range") }
    "70000" (fun _ => .message "PORT out of range") rfl (by decide) rfl

/-- C9 (confirmed): with scopes enabled and `NODE_ENV` bound to a non-empty
string `s` that has no entry in the resolved scope table, construction does
not fail with `ScopeUndeterminedError`; the effective lookup key of every
schema key becomes `"undefined_" ++ name` (the missing entry is
stringified into the prefix), and construction is exactly the parse of the
schema against those keys. -/
theorem claim_C9 (schema : EnvSchema) (src : RawEnvSource) (cfg : EnvManagerConfig)
    (s name : String) (l : List String)
    (h1 : cfg.enableScopes = some true)
    (h2 : lookupSrc src "NODE_ENV" = some s)
    (h3 : s ≠ "")
    (h4 : List.lookup s (resolvedScopes (some cfg)) = none) :
    create schema (some src) (some cfg) ≠ .error (.scopeUndetermined l)
    ∧ getPrefixedName true (some s) (resolvedScopes (some cfg)) name =
        "undefined_" ++ name
    ∧ create schema (some src) (some cfg) =
        (parseEnv true (some s) (resolvedScopes (some cfg)) src schema).map
          (fun env =>
            { source := src, env := env, schema := schema,
              enableScopes := true, currentScope := some s,
              scopes := resolvedScopes (some cfg) }) := by
  have hcur : initCurrentScope src = some s := by
    simp [initCurrentScope, h2, h3]
  have hes : resolvedEnableScopes (some cfg) = true := by
    simp [resolvedEnableScopes, h1]
  have hmain : create schema (some src) (some cfg) =
      (parseEnv true (some s) (resolvedScopes (some cfg)) src schema).map
        (fun env =>
          { source := src, env := env, schema := schema,
            enableScopes := true, currentScope := some s,
            scopes := resolvedScopes (some cfg) }) := by
    simp only [create, hcur, hes, Option.isNone_some, Bool.and_false,
      Bool.false_eq_true, if_false]
    cases hp : parseEnv true (some s) (resolvedScopes (some cfg)) src schema <;>
      simp [Except.map]
  refine ⟨?_, ?_, hmain⟩
  · rw [hmain]
    intro hc
    cases hp : parseEnv true (some s) (resolvedScopes (some cfg)) src schema with
    | error e =>
      rw [hp] at hc
      simp only [Except.map] at hc
      injection hc with he
      subst he
      exact parseEnv_ne_scope _ _ _ _ _ _ hp
    | ok env =>
      rw [hp] at hc
      simp [Except.map] at hc
  · have hne : ¬((s == "") = true) := by simp [h3]
    simp only [getPrefixedName, if_neg hne, scopeEntryStr, h4]
    rfl

/-- C9 witness: `NODE_ENV = "qa"` is unknown to the default table, no
scope-undetermined error is raised, and the key `API` is read from
`undefined_API`. -/
theorem claim_C9_witness :
    create [("API", { type := .string })]
        (some [("NODE_ENV", "qa"), ("undefined_API", "v")])
        (some { enableScopes := some true }) ≠
      .error (.scopeUndetermined ["development", "production", "test", "staging"])
    ∧ getPrefixedName true (some "qa") defaultScopes "API" = "undefined_API"
    ∧ create [("API", { type := .string })]
        (some [("NODE_ENV", "qa"), ("undefined_API", "v")])
        (some { enableScopes := some true }) =
      .ok { source := [("NODE_ENV", "qa"), ("undefined_API", "v")],
            env := [("API", .vstr "v")],
            schema := [("API", { type := .string })],
            enableScopes := true, currentScope := some "qa",
            scopes := defaultScopes } :=
  claim_C9 [("API", { type := .string })]
    [("NODE_ENV", "qa"), ("undefined_API", "v")] { enableScopes := some true }
    "qa" "API" ["development", "production", "test", "staging"]
    rfl rfl (by decide) rfl

/-- C10 (confirmed): construction — whether it succeeds or fails — only
reads the caller-supplied source, handing back exactly the mapping it was
given, and `data()` returns the cached record leaving the instance (and
hence the source) untouched. -/
theorem claim_C10 (schema : EnvSchema) (source : Option RawEnvSource)
    (config : Option EnvManagerConfig) (m : EnvManager) :
    (createRun schema source config).2 = source ∧ (data m).2 = m :=
  ⟨createRun_source schema source config, rfl⟩

end EnvMgr
